import Mathlib

/-!
Shallow embedding of `src/ocrmypdf/pdfa.py` (OCRmyPDF's pdfmark generator and
PDF/A claim checker) together with theorems checking the module's
natural-language specification.

Modelling conventions:
* Python `str` values are `List Char` (Lean `Char` is a Unicode scalar value,
  as in Python strings).
* Python `bytes` values are `List Nat`, each element intended to be `< 256`.
* The filesystem is a map `List Char → Option (List Char)` from paths to file
  contents; `generate_pdfa_ps` threads it explicitly and returns the outcome
  (`Except`) together with the resulting filesystem.
* `SRGB_ICC_PROFILE` is resolved at import time by `pkg_resources` and depends
  on the installation; the byte string `os.fsencode(SRGB_ICC_PROFILE)` is
  therefore a parameter (`srgb_icc_profile_bytes`) of the embedded generator.
-/

set_option maxRecDepth 8192

/-- Embeds `binascii.hexlify`'s digit alphabet: value `0..9 → '0'..'9'`,
`10..15 → 'a'..'f'` (lowercase, as `hexlify` produces). -/
def hexDigitChar (n : Nat) : Char :=
  if n < 10 then Char.ofNat (48 + n) else Char.ofNat (87 + n)

/-- Embeds `binascii.hexlify` on a byte string, already decoded as ASCII text:
each byte becomes two lowercase hex digits. -/
def hexlify (bs : List Nat) : List Char :=
  bs.flatMap (fun b => [hexDigitChar (b / 16), hexDigitChar (b % 16)])

/-- Spec-side inverse of `hexlify` (`binascii.unhexlify`): pairs of hex digits
back to bytes; `none` on odd length or a non-hex character. -/
def hexDigitVal (c : Char) : Option Nat :=
  if 48 ≤ c.toNat ∧ c.toNat ≤ 57 then some (c.toNat - 48)
  else if 97 ≤ c.toNat ∧ c.toNat ≤ 102 then some (c.toNat - 87)
  else if 65 ≤ c.toNat ∧ c.toNat ≤ 70 then some (c.toNat - 55)
  else none

/-- Spec-side hex-string decoder; see `hexDigitVal`. -/
def unhexlify : List Char → Option (List Nat)
  | [] => some []
  | [_] => none
  | c1 :: c2 :: rest =>
    match hexDigitVal c1, hexDigitVal c2, unhexlify rest with
    | some h, some l, some bs => some ((h * 16 + l) :: bs)
    | _, _, _ => none

/-- Embeds Python `str.lower` restricted to ASCII text (the only place the
source applies `.lower()` is to the output of `hexlify(...).decode('ascii')`,
which is pure ASCII, where `str.lower` maps exactly `'A'..'Z'` down by 32). -/
def pyLower (c : Char) : Char :=
  if 65 ≤ c.toNat ∧ c.toNat ≤ 90 then Char.ofNat (c.toNat + 32) else c

/-- Embeds `str.encode('utf-16be')` for a single scalar value: code points
below `0x10000` give two big-endian bytes, the rest a surrogate pair. -/
def utf16be_encode_char (c : Char) : List Nat :=
  if c.toNat < 65536 then
    [c.toNat / 256, c.toNat % 256]
  else
    [(55296 + (c.toNat - 65536) / 1024) / 256,
     (55296 + (c.toNat - 65536) / 1024) % 256,
     (56320 + (c.toNat - 65536) % 1024) / 256,
     (56320 + (c.toNat - 65536) % 1024) % 256]

/-- Embeds `str.encode('utf-16be')` on a whole string (no byte order mark,
exactly as in Python). -/
def utf16be_encode (s : List Char) : List Nat :=
  s.flatMap utf16be_encode_char

/-- Spec-side big-endian UTF-16 decoder (`bytes.decode('utf-16be')` on
well-formed input): a high surrogate word combines with the following word,
any other word is a scalar value on its own. -/
def utf16be_decode : List Nat → List Char
  | [] => []
  | [_] => []
  | b1 :: b2 :: rest =>
    if 55296 ≤ b1 * 256 + b2 ∧ b1 * 256 + b2 ≤ 56319 then
      match rest with
      | b3 :: b4 :: rest2 =>
          Char.ofNat (65536 + (b1 * 256 + b2 - 55296) * 1024 + (b3 * 256 + b4 - 56320))
            :: utf16be_decode rest2
      | _ => []
    else
      Char.ofNat (b1 * 256 + b2) :: utf16be_decode rest

/-- Embeds `encode_text_string` (pdfa.py lines 93-117): drop NULs, return `''`
for the empty result, otherwise hex-encode (lowercased) the UTF-16BE bytes
prefixed with the byte order mark `b'\xfe\xff'` (bytes 254, 255). -/
def encode_text_string (s : List Char) : List Char :=
  let s2 := s.filter (fun c => c ≠ Char.ofNat 0)
  if s2 = [] then []
  else (hexlify (254 :: 255 :: utf16be_encode s2)).map pyLower

/-- Embeds `_encode_ascii` (pdfa.py lines 120-131): `str.translate` deletes
`'('`, `')'`, `'\\'` and NUL, then `encode('ascii', errors='replace')` keeps
code points below 128 and turns every other character into `'?'`. -/
def _encode_ascii (s : List Char) : List Char :=
  (s.filter (fun c => c ≠ '(' ∧ c ≠ ')' ∧ c ≠ '\\' ∧ c ≠ Char.ofNat 0)).map
    (fun c => if c.toNat < 128 then c else '?')

/-- Text of `pdfa_def_template` before the `$icc_profile` placeholder. -/
def pdfa_def_template_pre : List Char :=
  "%!\n% Define entries in the document Info dictionary :\n/ICCProfile ".data

/-- Text of `pdfa_def_template` between the `$icc_profile` and
`$icc_identifier` placeholders. -/
def pdfa_def_template_mid : List Char :=
  ("\ndef\n\n% Define an ICC profile :\n\n[/_objdef \x7bicc_PDFA\x7d /type /stream /OBJ pdfmark\n[\x7bicc_PDFA\x7d\n<<\n  /N currentpagedevice /ProcessColorModel known \x7b\n    currentpagedevice /ProcessColorModel get dup /DeviceGray eq\n    \x7bpop 1\x7d \x7b\n      /DeviceRGB eq\n      \x7b3\x7d\x7b4\x7d ifelse\n    \x7d ifelse\n  \x7d \x7b\n    (ERROR, unable to determine ProcessColorModel) == flush\n  \x7d ifelse\n>> /PUT pdfmark\n[\x7bicc_PDFA\x7d ICCProfile (r) file /PUT pdfmark\n\n% Define the output intent dictionary :\n\n[/_objdef \x7bOutputIntent_PDFA\x7d /type /dict /OBJ pdfmark\n[\x7bOutputIntent_PDFA\x7d <<\n  /Type /OutputIntent             % Must be so (the standard requires).\n  /S /GTS_PDFA1                   % Must be so (the standard requires).\n  /DestOutputProfile \x7bicc_PDFA\x7d            % Must be so (see above).\n  /OutputConditionIdentifier (").data

/-- Text of `pdfa_def_template` after the `$icc_identifier` placeholder. -/
def pdfa_def_template_post : List Char :=
  (")\n>> /PUT pdfmark\n[\x7bCatalog\x7d <</OutputIntents [ \x7bOutputIntent_PDFA\x7d ]>> /PUT pdfmark\n").data

/-- Embeds the module-level constant `pdfa_def_template` (pdfa.py lines
58-90), with its two `$`-placeholders in place. -/
def pdfa_def_template : List Char :=
  pdfa_def_template_pre ++ ("$icc_profile").data ++ pdfa_def_template_mid
    ++ ("$icc_identifier").data ++ pdfa_def_template_post

/-- Embeds `_get_pdfa_def` (pdfa.py lines 144-161):
`Template(pdfa_def_template).substitute(icc_profile=..., icc_identifier=...)`.
For this fixed template, `Template.substitute` replaces the two placeholders
and leaves all other text unchanged. The legacy `pdfmark` and `ascii_docinfo`
parameters are accepted and unused, as in the source. -/
def _get_pdfa_def {α β : Type} (icc_profile icc_identifier : List Char)
    (pdfmark : Option α) (ascii_docinfo : Option β) : List Char :=
  pdfa_def_template_pre ++ icc_profile ++ pdfa_def_template_mid
    ++ icc_identifier ++ pdfa_def_template_post

/-- Error raised by `generate_pdfa_ps` for an unsupported ICC identifier
(`raise NotImplementedError("Only supporting sRGB")`). -/
inductive PdfaGenError where
  | notImplemented : List Char → PdfaGenError
deriving DecidableEq

/-- Embeds `generate_pdfa_ps` (pdfa.py lines 164-185).
`srgb_icc_profile_bytes` stands for `os.fsencode(SRGB_ICC_PROFILE)`, the
filesystem encoding of the bundled profile's path. `fs` is the filesystem
before the call; the returned pair is the outcome and the filesystem after
the call: on the `sRGB` path the file at `target_filename` holds the
substituted template (written with `encoding='ascii'`), on any other
identifier the function raises before touching the filesystem. -/
def generate_pdfa_ps {α β : Type} (srgb_icc_profile_bytes : List Nat)
    (fs : List Char → Option (List Char)) (target_filename : List Char)
    (pdfmark : Option α) (icc : List Char) (ascii_docinfo : Option β) :
    Except PdfaGenError Unit × (List Char → Option (List Char)) :=
  if icc = ("sRGB").data then
    let bytes_icc_profile := srgb_icc_profile_bytes
    let hex_icc_profile := hexlify bytes_icc_profile
    let icc_profile := '<' :: (hex_icc_profile ++ ['>'])
    let ps := _get_pdfa_def icc_profile icc pdfmark (none : Option Unit)
    (Except.ok (), fun p => if p = target_filename then some ps else fs p)
  else
    (Except.error (PdfaGenError.notImplemented (("Only supporting sRGB").data)), fs)

/-- Result record of `file_claims_pdfa`: the Python dict has an always-present
`'conformance'` key and optional `'pass'`/`'output'` keys. -/
structure PdfaClaim where
  pass : Option Bool
  output : Option (List Char)
  conformance : List Char
deriving DecidableEq

/-- Embeds the set literal `valid_part_conforms` (pdfa.py line 206). -/
def valid_part_conforms : List (List Char) :=
  [("1A").data, ("1B").data, ("2A").data, ("2B").data,
   ("2U").data, ("3A").data, ("3B").data, ("3U").data]

/-- Embeds `file_claims_pdfa` (pdfa.py lines 188-213), abstracting the
`pikepdf` metadata read: `pdfa_status` is the string
`pdf.open_metadata().pdfa_status`, where the empty list stands for a falsy
value (absent or empty PDF/A marker). -/
def file_claims_pdfa (pdfa_status : List Char) : PdfaClaim :=
  if pdfa_status = [] then
    { pass := some false
      output := some (("pdf").data)
      conformance := ("No PDF/A metadata in XMP").data }
  else
    let conformance := ("PDF/A-").data ++ pdfa_status
    if pdfa_status ∈ valid_part_conforms then
      { pass := some true, output := some (("pdfa").data), conformance := conformance }
    else
      { pass := none, output := none, conformance := conformance }

/-- Spec-side extraction of the first angle-bracketed literal of a PostScript
text: the characters strictly between the first `'<'` and the next `'>'`. -/
def extractAngleHex (s : List Char) : List Char :=
  ((s.dropWhile (fun c => c ≠ '<')).drop 1).takeWhile (fun c => c ≠ '>')

/-- The part of `pdfa_def_template_mid` before its first occurrence of
`OutputIntent` (used to exhibit that occurrence explicitly). -/
def pdfa_def_template_mid_a : List Char :=
  ("\ndef\n\n% Define an ICC profile :\n\n[/_objdef \x7bicc_PDFA\x7d /type /stream /OBJ pdfmark\n[\x7bicc_PDFA\x7d\n<<\n  /N currentpagedevice /ProcessColorModel known \x7b\n    currentpagedevice /ProcessColorModel get dup /DeviceGray eq\n    \x7bpop 1\x7d \x7b\n      /DeviceRGB eq\n      \x7b3\x7d\x7b4\x7d ifelse\n    \x7d ifelse\n  \x7d \x7b\n    (ERROR, unable to determine ProcessColorModel) == flush\n  \x7d ifelse\n>> /PUT pdfmark\n[\x7bicc_PDFA\x7d ICCProfile (r) file /PUT pdfmark\n\n% Define the output intent dictionary :\n\n[/_objdef \x7b").data

/-- The part of `pdfa_def_template_mid` after its first occurrence of
`OutputIntent`. -/
def pdfa_def_template_mid_b : List Char :=
  ("_PDFA\x7d /type /dict /OBJ pdfmark\n[\x7bOutputIntent_PDFA\x7d <<\n  /Type /OutputIntent             % Must be so (the standard requires).\n  /S /GTS_PDFA1                   % Must be so (the standard requires).\n  /DestOutputProfile \x7bicc_PDFA\x7d            % Must be so (see above).\n  /OutputConditionIdentifier (").data

/-- Decomposition of the middle template section at its first occurrence of
the word `OutputIntent`. -/
theorem pdfa_def_template_mid_split :
    pdfa_def_template_mid =
      pdfa_def_template_mid_a ++ ("OutputIntent").data ++ pdfa_def_template_mid_b := by
  rfl

/-- Single-hex-digit facts, established by evaluation over all sixteen digit
values: `hexDigitVal` inverts `hexDigitChar`, the digit characters are
already lowercase, ASCII, and distinct from the angle brackets. -/
theorem hexDigit_facts : ∀ m : Fin 16,
    hexDigitVal (hexDigitChar m.val) = some m.val ∧
    pyLower (hexDigitChar m.val) = hexDigitChar m.val ∧
    (hexDigitChar m.val).toNat < 128 ∧
    hexDigitChar m.val ≠ '>' ∧ hexDigitChar m.val ≠ '<' := by
  decide

/-- Characters produced by `hexlify` on a byte string are ASCII and are not
angle brackets. -/
theorem hexlify_mem_facts {bs : List Nat} (h : ∀ b ∈ bs, b < 256) :
    ∀ c ∈ hexlify bs, c.toNat < 128 ∧ c ≠ '>' ∧ c ≠ '<' := by
  intro c hc
  simp only [hexlify, List.mem_flatMap] at hc
  obtain ⟨b, hb, hcb⟩ := hc
  have hblt : b < 256 := h b hb
  have h1 : b / 16 < 16 := by omega
  have h2 : b % 16 < 16 := by omega
  simp only [List.mem_cons, List.not_mem_nil, or_false] at hcb
  rcases hcb with rfl | rfl
  · exact ⟨(hexDigit_facts ⟨b / 16, h1⟩).2.2.1, (hexDigit_facts ⟨b / 16, h1⟩).2.2.2.1,
      (hexDigit_facts ⟨b / 16, h1⟩).2.2.2.2⟩
  · exact ⟨(hexDigit_facts ⟨b % 16, h2⟩).2.2.1, (hexDigit_facts ⟨b % 16, h2⟩).2.2.2.1,
      (hexDigit_facts ⟨b % 16, h2⟩).2.2.2.2⟩

/-- On every byte below 256, a `hexlify`d pair of digits decodes back through
`unhexlify`; stepping lemma for a two-digit prefix. -/
theorem unhexlify_cons2 {c1 c2 : Char} {hv lv : Nat} {rest : List Char} {bs : List Nat}
    (h1 : hexDigitVal c1 = some hv) (h2 : hexDigitVal c2 = some lv)
    (h3 : unhexlify rest = some bs) :
    unhexlify (c1 :: c2 :: rest) = some ((hv * 16 + lv) :: bs) := by
  simp [unhexlify, h1, h2, h3]

/-- Round trip of `unhexlify` over `hexlify` on genuine byte strings. -/
theorem unhexlify_hexlify {bs : List Nat} (h : ∀ b ∈ bs, b < 256) :
    unhexlify (hexlify bs) = some bs := by
  induction bs with
  | nil => rfl
  | cons b bs ih =>
    have hb : b < 256 := h b (List.mem_cons_self b bs)
    have h1 : b / 16 < 16 := by omega
    have h2 : b % 16 < 16 := by omega
    have hstep := unhexlify_cons2 (hexDigit_facts ⟨b / 16, h1⟩).1 (hexDigit_facts ⟨b % 16, h2⟩).1
      (ih (fun x hx => h x (List.mem_cons_of_mem b hx)))
    simp only [hexlify, List.flatMap_cons, List.cons_append, List.nil_append] at hstep ⊢
    rw [hstep]
    congr 2
    omega

/-- Lowercasing is the identity on `hexlify` output. -/
theorem map_pyLower_hexlify {bs : List Nat} (h : ∀ b ∈ bs, b < 256) :
    (hexlify bs).map pyLower = hexlify bs := by
  induction bs with
  | nil => rfl
  | cons b bs ih =>
    have hb : b < 256 := h b (List.mem_cons_self b bs)
    have h1 : b / 16 < 16 := by omega
    have h2 : b % 16 < 16 := by omega
    simp only [hexlify, List.flatMap_cons, List.cons_append, List.nil_append, List.map_cons]
    rw [(hexDigit_facts ⟨b / 16, h1⟩).2.1, (hexDigit_facts ⟨b % 16, h2⟩).2.1]
    have := ih (fun x hx => h x (List.mem_cons_of_mem b hx))
    simp only [hexlify] at this
    rw [this]

/-- Every byte emitted by the single-character UTF-16BE encoder is below 256. -/
theorem utf16be_encode_char_lt_256 (c : Char) : ∀ b ∈ utf16be_encode_char c, b < 256 := by
  have hv : c.toNat < 55296 ∨ (57343 < c.toNat ∧ c.toNat < 1114112) := c.valid
  intro b hb
  unfold utf16be_encode_char at hb
  by_cases h : c.toNat < 65536
  · rw [if_pos h] at hb
    simp only [List.mem_cons, List.not_mem_nil, or_false] at hb
    rcases hb with h1 | h1 <;> omega
  · rw [if_neg h] at hb
    simp only [List.mem_cons, List.not_mem_nil, or_false] at hb
    rcases hb with h1 | h1 | h1 | h1 <;> omega

/-- Every byte emitted by the UTF-16BE encoder is below 256. -/
theorem utf16be_encode_lt_256 {s : List Char} : ∀ b ∈ utf16be_encode s, b < 256 := by
  intro b hb
  simp only [utf16be_encode, List.mem_flatMap] at hb
  obtain ⟨c, _, hc⟩ := hb
  exact utf16be_encode_char_lt_256 c b hc

/-- Unfolding of the decoder on a word that is not a high surrogate. -/
theorem utf16be_decode_cons_bmp (b1 b2 : Nat) (rest : List Nat)
    (h : ¬(55296 ≤ b1 * 256 + b2 ∧ b1 * 256 + b2 ≤ 56319)) :
    utf16be_decode (b1 :: b2 :: rest) = Char.ofNat (b1 * 256 + b2) :: utf16be_decode rest := by
  match rest with
  | [] => simp [utf16be_decode, h]
  | [b3] => simp [utf16be_decode, h]
  | b3 :: b4 :: rest2 => simp [utf16be_decode, h]

/-- Unfolding of the decoder on a high surrogate followed by a full word. -/
theorem utf16be_decode_cons_surr (b1 b2 b3 b4 : Nat) (rest2 : List Nat)
    (h : 55296 ≤ b1 * 256 + b2 ∧ b1 * 256 + b2 ≤ 56319) :
    utf16be_decode (b1 :: b2 :: b3 :: b4 :: rest2) =
      Char.ofNat (65536 + (b1 * 256 + b2 - 55296) * 1024 + (b3 * 256 + b4 - 56320))
        :: utf16be_decode rest2 := by
  simp [utf16be_decode, h]

/-- Decoding steps over one encoded scalar value and recovers it. -/
theorem utf16be_decode_encode_char (c : Char) (rest : List Nat) :
    utf16be_decode (utf16be_encode_char c ++ rest) = c :: utf16be_decode rest := by
  have hv : c.toNat < 55296 ∨ (57343 < c.toNat ∧ c.toNat < 1114112) := c.valid
  by_cases h : c.toNat < 65536
  · have he : utf16be_encode_char c = [c.toNat / 256, c.toNat % 256] := by
      rw [utf16be_encode_char, if_pos h]
    rw [he, List.cons_append, List.cons_append, List.nil_append]
    rw [utf16be_decode_cons_bmp _ _ _ (by omega)]
    rw [show c.toNat / 256 * 256 + c.toNat % 256 = c.toNat from by omega, Char.ofNat_toNat]
  · have he : utf16be_encode_char c =
        [(55296 + (c.toNat - 65536) / 1024) / 256,
         (55296 + (c.toNat - 65536) / 1024) % 256,
         (56320 + (c.toNat - 65536) % 1024) / 256,
         (56320 + (c.toNat - 65536) % 1024) % 256] := by
      rw [utf16be_encode_char, if_neg h]
    have hcond : 55296 ≤ (55296 + (c.toNat - 65536) / 1024) / 256 * 256 +
          (55296 + (c.toNat - 65536) / 1024) % 256 ∧
        (55296 + (c.toNat - 65536) / 1024) / 256 * 256 +
          (55296 + (c.toNat - 65536) / 1024) % 256 ≤ 56319 := by
      constructor <;> omega
    have hdec := utf16be_decode_cons_surr
      ((55296 + (c.toNat - 65536) / 1024) / 256)
      ((55296 + (c.toNat - 65536) / 1024) % 256)
      ((56320 + (c.toNat - 65536) % 1024) / 256)
      ((56320 + (c.toNat - 65536) % 1024) % 256) rest hcond
    rw [he, List.cons_append, List.cons_append, List.cons_append, List.cons_append,
      List.nil_append, hdec]
    have harg : 65536 +
        ((55296 + (c.toNat - 65536) / 1024) / 256 * 256 +
          (55296 + (c.toNat - 65536) / 1024) % 256 - 55296) * 1024 +
        ((56320 + (c.toNat - 65536) % 1024) / 256 * 256 +
          (56320 + (c.toNat - 65536) % 1024) % 256 - 56320) = c.toNat := by omega
    rw [harg, Char.ofNat_toNat]

/-- Round trip of the UTF-16BE decoder over the encoder. -/
theorem utf16be_decode_encode (s : List Char) : utf16be_decode (utf16be_encode s) = s := by
  induction s with
  | nil => rfl
  | cons c s ih =>
    show utf16be_decode (utf16be_encode_char c ++ utf16be_encode s) = c :: s
    rw [utf16be_decode_encode_char, ih]

/-- Dropping while a predicate holds skips a block that satisfies it wholly. -/
theorem dropWhile_append_all {α : Type} (p : α → Bool) {A : List α} (B : List α)
    (h : ∀ a ∈ A, p a = true) :
    List.dropWhile p (A ++ B) = List.dropWhile p B := by
  induction A with
  | nil => rfl
  | cons a A ih =>
    have ha := h a (List.mem_cons_self a A)
    simp only [List.cons_append, List.dropWhile_cons, ha, if_true]
    exact ih (fun x hx => h x (List.mem_cons_of_mem a hx))

/-- Taking while a predicate holds stops exactly at the first failure. -/
theorem takeWhile_append_all {α : Type} (p : α → Bool) {A : List α} {b : α} (B : List α)
    (h : ∀ a ∈ A, p a = true) (hb : p b = false) :
    List.takeWhile p (A ++ b :: B) = A := by
  induction A with
  | nil => simp [List.takeWhile_cons, hb]
  | cons a A ih =>
    have ha := h a (List.mem_cons_self a A)
    simp only [List.cons_append, List.takeWhile_cons, ha, if_true]
    rw [ih (fun x hx => h x (List.mem_cons_of_mem a hx))]

/-- The angle-bracket extraction recovers exactly the hex literal that
`_get_pdfa_def` embeds: the template text before the literal contains no
`'<'`, the literal itself contains no `'>'`. -/
theorem extractAngleHex_get_pdfa_def {α β : Type} (hex : List Char)
    (hhex : ∀ c ∈ hex, c ≠ '>') (ident : List Char)
    (pdfmark : Option α) (ascii_docinfo : Option β) :
    extractAngleHex (_get_pdfa_def ('<' :: (hex ++ ['>'])) ident pdfmark ascii_docinfo) = hex := by
  unfold _get_pdfa_def extractAngleHex
  simp only [List.append_assoc, List.cons_append, List.singleton_append]
  rw [dropWhile_append_all (fun c => decide (c ≠ '<')) _
    (by decide : ∀ a ∈ pdfa_def_template_pre, decide (a ≠ '<') = true)]
  rw [List.dropWhile_cons]
  rw [if_neg (by decide)]
  simp only [List.drop_succ_cons, List.drop_zero]
  exact takeWhile_append_all (fun c => decide (c ≠ '>')) _
    (fun c hc => decide_eq_true (hhex c hc)) (by decide)

/-- C1 counterexample: for the non-empty unrecognized metadata status `XX`,
`file_claims_pdfa` produces the conformance string `PDF/A-XX`, which is
neither the fixed no-metadata string nor `PDF/A-` followed by one of the
recognized part+conformance codes; so a tenth conformance value is produced,
contrary to the claim. -/
theorem C1_conformance_counterexample :
    (file_claims_pdfa (("XX").data)).conformance ≠ ("No PDF/A metadata in XMP").data ∧
    ∀ code ∈ valid_part_conforms,
      (file_claims_pdfa (("XX").data)).conformance ≠ ("PDF/A-").data ++ code := by
  decide

/-- C1 amended: the conformance string returned by `file_claims_pdfa` is
either the fixed string `No PDF/A metadata in XMP` (for an absent or empty
status) or `PDF/A-` followed by the status that was read — for any non-empty
status, recognized or not. -/
theorem C1_conformance_amended (pdfa_status : List Char) :
    (file_claims_pdfa pdfa_status).conformance = ("No PDF/A metadata in XMP").data ∨
    (pdfa_status ≠ [] ∧
      (file_claims_pdfa pdfa_status).conformance = ("PDF/A-").data ++ pdfa_status) := by
  by_cases h : pdfa_status = []
  · left
    simp [file_claims_pdfa, h]
  · right
    refine ⟨h, ?_⟩
    by_cases h2 : pdfa_status ∈ valid_part_conforms <;> simp [file_claims_pdfa, h, h2]

/-- C2: for every status in the recognized set, `file_claims_pdfa` returns
`pass = true`, `output = pdfa` and conformance `PDF/A-` followed by the
status. -/
theorem C2_recognized_status (s : List Char) (h : s ∈ valid_part_conforms) :
    file_claims_pdfa s =
      { pass := some true
        output := some (("pdfa").data)
        conformance := ("PDF/A-").data ++ s } := by
  fin_cases h <;> decide

/-- C2 witness: the status `2B` yields exactly
`pass = true, output = pdfa, conformance = PDF/A-2B`. -/
theorem C2_recognized_status_witness :
    (("2B").data ∈ valid_part_conforms) ∧
    file_claims_pdfa (("2B").data) =
      { pass := some true
        output := some (("pdfa").data)
        conformance := ("PDF/A-2B").data } :=
  ⟨by decide, (C2_recognized_status (("2B").data) (by decide)).trans (by decide)⟩

/-- C3: for an absent or empty PDF/A status (the falsy case of
`pdfmeta.pdfa_status`, modelled by the empty string), the checker returns
exactly `pass = false, output = pdf, conformance = No PDF/A metadata in
XMP`. -/
theorem C3_no_pdfa_metadata :
    file_claims_pdfa [] =
      { pass := some false
        output := some (("pdf").data)
        conformance := ("No PDF/A metadata in XMP").data } := by
  decide

/-- C4: for every ICC identifier other than `sRGB`, `generate_pdfa_ps` raises
`NotImplementedError` and returns the filesystem unchanged: no file (not even
a partial one) is written at any path. -/
theorem C4_unsupported_icc {α β : Type} (srgb_icc_profile_bytes : List Nat)
    (fs : List Char → Option (List Char)) (target_filename : List Char)
    (pdfmark : Option α) (icc : List Char) (ascii_docinfo : Option β)
    (h : icc ≠ ("sRGB").data) :
    generate_pdfa_ps srgb_icc_profile_bytes fs target_filename pdfmark icc ascii_docinfo =
      (Except.error (PdfaGenError.notImplemented (("Only supporting sRGB").data)), fs) := by
  simp [generate_pdfa_ps, h]

/-- C4 witness: requesting the identifier `gray` on an empty filesystem fails
with the unimplemented error and leaves the filesystem untouched. -/
theorem C4_unsupported_icc_witness :
    generate_pdfa_ps [104, 111, 109, 101] (fun _ => none) (("out.ps").data)
        (none : Option Unit) (("gray").data) (none : Option Unit) =
      (Except.error (PdfaGenError.notImplemented (("Only supporting sRGB").data)),
        (fun _ => none)) :=
  C4_unsupported_icc [104, 111, 109, 101] (fun _ => none) (("out.ps").data)
    (none : Option Unit) (("gray").data) (none : Option Unit) (by decide)

/-- C9: the legacy `pdfmark` and `ascii_docinfo` parameters of
`generate_pdfa_ps`, and the legacy `pdfmark` and `ascii_docinfo` parameters
of `_get_pdfa_def`, have no effect: two runs that differ only in those
values (even in their types) produce identical results, in particular
byte-identical written content. -/
theorem C9_legacy_params_ignored {α₁ α₂ β₁ β₂ γ₁ γ₂ δ₁ δ₂ : Type}
    (srgb_icc_profile_bytes : List Nat) (fs : List Char → Option (List Char))
    (target_filename icc : List Char)
    (p1 : Option α₁) (p2 : Option α₂) (a1 : Option β₁) (a2 : Option β₂)
    (icc_profile icc_identifier : List Char)
    (q1 : Option γ₁) (q2 : Option γ₂) (r1 : Option δ₁) (r2 : Option δ₂) :
    generate_pdfa_ps srgb_icc_profile_bytes fs target_filename p1 icc a1 =
      generate_pdfa_ps srgb_icc_profile_bytes fs target_filename p2 icc a2 ∧
    _get_pdfa_def icc_profile icc_identifier q1 r1 =
      _get_pdfa_def icc_profile icc_identifier q2 r2 :=
  ⟨rfl, rfl⟩

/-- C10: for every input that is empty or consists only of NUL characters,
`encode_text_string` returns the empty string (no byte order mark, no
digits at all). -/
theorem C10_nul_only_empty (s : List Char) (h : ∀ c ∈ s, c = Char.ofNat 0) :
    encode_text_string s = [] := by
  have hf : s.filter (fun c => c ≠ Char.ofNat 0) = [] := by
    rw [List.filter_eq_nil_iff]
    intro a ha
    simp [h a ha]
  simp only [encode_text_string]
  rw [hf]
  rfl

/-- C10 witness: a two-NUL string encodes to the empty string. -/
theorem C10_nul_only_empty_witness :
    encode_text_string [Char.ofNat 0, Char.ofNat 0] = [] :=
  C10_nul_only_empty [Char.ofNat 0, Char.ofNat 0] (by decide)

/-- C8 counterexample: the ASCII stripper passes ASCII control characters
through unchanged, so its output is not confined to the printable ASCII
range (32..126): on the one-character input `\x01` the output still
contains `\x01`. -/
theorem C8_printable_counterexample :
    ¬ (∀ c ∈ _encode_ascii [Char.ofNat 1], 32 ≤ c.toNat ∧ c.toNat ≤ 126) := by
  decide

/-- C8 amended: every character emitted by `_encode_ascii` is ASCII (code
point below 128) and is never `(`, `)` or `\`; it is not, however, always in
the printable range, since ASCII control characters pass through. -/
theorem C8_ascii_amended (s : List Char) (c : Char) (hc : c ∈ _encode_ascii s) :
    c.toNat < 128 ∧ c ≠ '(' ∧ c ≠ ')' ∧ c ≠ '\\' := by
  simp only [_encode_ascii, List.mem_map, List.mem_filter] at hc
  obtain ⟨x, ⟨hxs, hx⟩, hxc⟩ := hc
  rw [decide_eq_true_eq] at hx
  by_cases hlt : x.toNat < 128
  · rw [if_pos hlt] at hxc
    subst hxc
    exact ⟨hlt, hx.1, hx.2.1, hx.2.2.1⟩
  · rw [if_neg hlt] at hxc
    subst hxc
    exact ⟨by decide, by decide, by decide, by decide⟩

/-- C8 amended witness: on the input `a(é` the stripper emits the character
`a`, which is ASCII and none of the PostScript-significant characters. -/
theorem C8_ascii_amended_witness :
    ('a' ∈ _encode_ascii (("a(é").data)) ∧
    ('a'.toNat < 128 ∧ 'a' ≠ '(' ∧ 'a' ≠ ')' ∧ 'a' ≠ '\\') :=
  ⟨by decide, C8_ascii_amended (("a(é").data) 'a' (by decide)⟩

/-- C7: `encode_text_string` round-trips — hex-decoding its output, dropping
the two byte-order-mark bytes and decoding the rest as big-endian UTF-16
recovers the input with all NUL characters removed (for the empty/NUL-only
corner case both sides are empty). -/
theorem C7_encode_text_string_roundtrip (s : List Char) :
    (unhexlify (encode_text_string s)).map (fun bs => utf16be_decode (bs.drop 2)) =
      some (s.filter (fun c => c ≠ Char.ofNat 0)) := by
  by_cases hf : s.filter (fun c => c ≠ Char.ofNat 0) = []
  · simp only [encode_text_string]
    rw [hf]
    rfl
  · have hbytes : ∀ b ∈ (254 :: 255 :: utf16be_encode (s.filter (fun c => c ≠ Char.ofNat 0))),
        b < 256 := by
      intro b hb
      simp only [List.mem_cons] at hb
      rcases hb with rfl | rfl | hb
      · omega
      · omega
      · exact utf16be_encode_lt_256 b hb
    simp only [encode_text_string]
    rw [if_neg hf]
    rw [map_pyLower_hexlify hbytes, unhexlify_hexlify hbytes]
    rw [Option.map_some']
    rw [List.drop_succ_cons, List.drop_succ_cons, List.drop_zero]
    rw [utf16be_decode_encode]

/-- C5: for every invocation of `generate_pdfa_ps` with identifier `sRGB`,
the file written at the target path contains an angle-bracketed hex literal
that decodes back to exactly the profile-path bytes
`os.fsencode(SRGB_ICC_PROFILE)`. -/
theorem C5_profile_hex_roundtrip {α β : Type} (srgb_icc_profile_bytes : List Nat)
    (hbytes : ∀ b ∈ srgb_icc_profile_bytes, b < 256)
    (fs : List Char → Option (List Char)) (target_filename : List Char)
    (pdfmark : Option α) (ascii_docinfo : Option β) :
    ((generate_pdfa_ps srgb_icc_profile_bytes fs target_filename pdfmark (("sRGB").data)
        ascii_docinfo).2 target_filename).bind
      (fun content => unhexlify (extractAngleHex content)) =
      some srgb_icc_profile_bytes := by
  have hfs : (generate_pdfa_ps srgb_icc_profile_bytes fs target_filename pdfmark
        (("sRGB").data) ascii_docinfo).2 target_filename =
      some (_get_pdfa_def ('<' :: (hexlify srgb_icc_profile_bytes ++ ['>'])) (("sRGB").data)
        pdfmark (none : Option Unit)) := by
    simp [generate_pdfa_ps]
  rw [hfs]
  show unhexlify (extractAngleHex (_get_pdfa_def
      ('<' :: (hexlify srgb_icc_profile_bytes ++ ['>'])) (("sRGB").data)
      pdfmark (none : Option Unit))) = some srgb_icc_profile_bytes
  rw [extractAngleHex_get_pdfa_def (hexlify srgb_icc_profile_bytes)
    (fun c hc => ((hexlify_mem_facts hbytes) c hc).2.1) (("sRGB").data) pdfmark
    (none : Option Unit)]
  exact unhexlify_hexlify hbytes

/-- C5 witness: with profile-path bytes `[1, 171, 255]` the written file's
hex literal decodes back to `[1, 171, 255]`. -/
theorem C5_profile_hex_roundtrip_witness :
    ((generate_pdfa_ps [1, 171, 255] (fun _ => none) (("pdfa.ps").data) (none : Option Unit)
        (("sRGB").data) (none : Option Unit)).2 (("pdfa.ps").data)).bind
      (fun content => unhexlify (extractAngleHex content)) = some [1, 171, 255] :=
  C5_profile_hex_roundtrip [1, 171, 255] (by decide) (fun _ => none) (("pdfa.ps").data)
    (none : Option Unit) (none : Option Unit)

/-- Pointwise property of a concatenation from its two parts. -/
theorem forall_mem_append {α : Type} {P : α → Prop} {A B : List α}
    (hA : ∀ x ∈ A, P x) (hB : ∀ x ∈ B, P x) : ∀ x ∈ A ++ B, P x := by
  intro x hx
  rcases List.mem_append.mp hx with h | h
  · exact hA x h
  · exact hB x h

/-- C6: for every output path, a run with identifier `sRGB` writes a file
whose content starts with `%!`, contains the substring `OutputIntent`, and
consists exclusively of ASCII characters (code points below 128), so the
strict-ASCII write cannot fail. -/
theorem C6_output_wellformed {α β : Type} (srgb_icc_profile_bytes : List Nat)
    (hbytes : ∀ b ∈ srgb_icc_profile_bytes, b < 256)
    (fs : List Char → Option (List Char)) (target_filename : List Char)
    (pdfmark : Option α) (ascii_docinfo : Option β) :
    ∃ content,
      (generate_pdfa_ps srgb_icc_profile_bytes fs target_filename pdfmark (("sRGB").data)
          ascii_docinfo).2 target_filename = some content ∧
      content.take 2 = ("%!").data ∧
      (("OutputIntent").data <:+: content) ∧
      ∀ c ∈ content, c.toNat < 128 := by
  refine ⟨_get_pdfa_def ('<' :: (hexlify srgb_icc_profile_bytes ++ ['>'])) (("sRGB").data)
      pdfmark (none : Option Unit), by simp [generate_pdfa_ps], ?_, ?_, ?_⟩
  · unfold _get_pdfa_def
    simp only [List.append_assoc]
    rw [List.take_append_of_le_length
      (by decide : (2 : Nat) ≤ pdfa_def_template_pre.length)]
    decide
  · unfold _get_pdfa_def
    rw [pdfa_def_template_mid_split]
    refine ⟨pdfa_def_template_pre ++ '<' :: (hexlify srgb_icc_profile_bytes ++ ['>']
      ++ pdfa_def_template_mid_a),
      pdfa_def_template_mid_b ++ (("sRGB").data ++ pdfa_def_template_post), ?_⟩
    simp [List.append_assoc]
  · unfold _get_pdfa_def
    have hpre : ∀ x ∈ pdfa_def_template_pre, x.toNat < 128 := by decide
    have hmid : ∀ x ∈ pdfa_def_template_mid, x.toNat < 128 := by
      have h : pdfa_def_template_mid.all (fun c => decide (c.toNat < 128)) = true := by rfl
      rw [List.all_eq_true] at h
      intro x hx
      exact of_decide_eq_true (h x hx)
    have hpost : ∀ x ∈ pdfa_def_template_post, x.toNat < 128 := by decide
    have hident : ∀ x ∈ ("sRGB").data, x.toNat < 128 := by decide
    have hicc : ∀ x ∈ '<' :: (hexlify srgb_icc_profile_bytes ++ ['>']), x.toNat < 128 := by
      intro x hx
      rcases List.mem_cons.mp hx with rfl | hx2
      · decide
      · rcases List.mem_append.mp hx2 with hx3 | hx3
        · exact ((hexlify_mem_facts hbytes) x hx3).1
        · rcases List.mem_cons.mp hx3 with rfl | hx4
          · decide
          · exact absurd hx4 (List.not_mem_nil x)
    exact forall_mem_append (forall_mem_append (forall_mem_append
      (forall_mem_append hpre hicc) hmid) hident) hpost

/-- C6 witness: with profile-path bytes `[0, 171, 233]` and a fresh
filesystem, the generated file exists, starts with `%!`, mentions
`OutputIntent` and is pure ASCII. -/
theorem C6_output_wellformed_witness :
    ∃ content,
      (generate_pdfa_ps [0, 171, 233] (fun _ => none) (("out.ps").data) (none : Option Unit)
          (("sRGB").data) (none : Option Unit)).2 (("out.ps").data) = some content ∧
      content.take 2 = ("%!").data ∧
      (("OutputIntent").data <:+: content) ∧
      ∀ c ∈ content, c.toNat < 128 :=
  C6_output_wellformed [0, 171, 233] (by decide) (fun _ => none) (("out.ps").data)
    (none : Option Unit) (none : Option Unit)
